import Mathlib

/-!
Shallow embedding of the issue-triage action (src/src/issueTriage.js and the
entry file src/unnamed/part_000) and proofs about its triage pipeline.

Time is modelled as milliseconds since the epoch (`Int`), which is the value
JavaScript arithmetic on `Date` objects produces.  Tracker calls are modelled
by oracles: `commentRes issue = none` means the `createComment` call for that
issue succeeds, `some e` means it throws with message `e`; likewise
`updateRes` for `issues.update`, and `Except` values for `repos.get` and
`issues.listForRepo`.  Each function records the tracker calls it actually
issues, so dry-run behaviour (calls skipped) is observable in the result.
-/

namespace IssueTriage

/-- Milliseconds in one day, the `24 * 60 * 60 * 1000` constant of the source. -/
def oneDay : Int := 24 * 60 * 60 * 1000

/-- Milliseconds in one day as a natural number, for the rounded day count. -/
def oneDayNat : Nat := 24 * 60 * 60 * 1000

/-- An issue as read from the tracker: `number`, `updated_at` (ms since epoch),
`author` (the source's `issue.user.login`), `labels`, and the pull-request
discriminator (`issue.pull_request` is truthy exactly for pull requests). -/
structure Issue where
  number : Nat
  updated_at : Int
  author : String
  labels : List String
  pull_request : Bool
deriving DecidableEq, Repr

/-- The options record built by the entry file and stored in `this.opts`. -/
structure Options where
  repoOwner : String
  repoName : String
  staleAfter : Int
  closeAfter : Int
  staleComment : String
  closeComment : String
  staleLabel : String
  showLogs : Bool
deriving DecidableEq, Repr

/-- Embedding of `_isIssue` (issueTriage.js lines 83-86): keep entries whose
pull-request discriminator is not set. -/
def isIssue (issue : Issue) : Bool :=
  !issue.pull_request

/-- Embedding of `_isOlderThan(date, days)` (issueTriage.js lines 88-91):
`new Date(date) < new Date() - days * 24 * 60 * 60 * 1000`. -/
def isOlderThan (now : Int) (date : Int) (days : Int) : Bool :=
  date < now - days * oneDay

/-- Embedding of `_getDaysSince` (issueTriage.js lines 93-97):
`Math.round(Math.abs((now - date) / oneDay))`.  For a nonnegative rational
`d / oneDay`, JavaScript `Math.round` is `floor(d / oneDay + 1 / 2)`, which is
`(2 * d + oneDay) / (2 * oneDay)` in integer division. -/
def getDaysSince (now : Int) (dayCreated : Int) : Nat :=
  (2 * (now - dayCreated).natAbs + oneDayNat) / (2 * oneDayNat)

/-- Embedding of `_filterOldIssues` (issueTriage.js lines 99-103). -/
def filterOldIssues (opts : Options) (now : Int) (issues : List Issue) : List Issue :=
  issues.filter (fun issue => isOlderThan now issue.updated_at opts.staleAfter)

/-- Whether the pattern matches at the head of the text (character by
character), the matching test JavaScript `String.replace` with a string
pattern performs at each position. -/
def matchesAt : List Char → List Char → Bool
  | [], _ => true
  | _ :: _, [] => false
  | p :: ps, c :: cs => p == c && matchesAt ps cs

/-- Replace the first (leftmost) occurrence of `pat` by `repl`, the behaviour
of JavaScript `String.replace` with a plain string pattern. -/
def replaceFirstChars (pat repl : List Char) : List Char → List Char
  | [] => if matchesAt pat [] then repl else []
  | c :: cs =>
    if matchesAt pat (c :: cs) then repl ++ List.drop pat.length (c :: cs)
    else c :: replaceFirstChars pat repl cs

/-- String wrapper for `replaceFirstChars`. -/
def replaceFirst (s pat repl : String) : String :=
  ⟨replaceFirstChars pat.data repl.data s.data⟩

/-- Embedding of `_generateMessage` (issueTriage.js lines 105-117): replace
the first occurrence of the days token with the rounded age, then the first
occurrence of the author token with `issue.user.login`. -/
def generateMessage (now : Int) (issue : Issue) (messageTemplate : String) : String :=
  let message := replaceFirst messageTemplate "%DAYS_OLD%"
    (toString (getDaysSince now issue.updated_at))
  replaceFirst message "%AUTHOR%" issue.author

/-- The closing-down test of `run` (issueTriage.js lines 39-46):
`opts.closeAfter > opts.staleAfter && _isOlderThan(issue.updated_at, opts.closeAfter)`. -/
def isClosingDown (opts : Options) (now : Int) (issue : Issue) : Bool :=
  decide (opts.staleAfter < opts.closeAfter) && isOlderThan now issue.updated_at opts.closeAfter

/-- A `createComment` call issued to the tracker client. -/
structure CommentCall where
  issue_number : Nat
  body : String
deriving DecidableEq, Repr

/-- An `issues.update` call issued to the tracker client: either a new state
(`some "closed"`) or a new label list, never both (issueTriage.js lines 190-201). -/
structure UpdateCall where
  issue_number : Nat
  state : Option String
  labels : Option (List String)
deriving DecidableEq, Repr

/-- Outcome of processing one candidate issue in the `run` loop. -/
inductive Outcome where
  | closedDown
  | markedStale
  | failed
deriving DecidableEq, Repr

/-- Everything one iteration of the candidate loop produces: tracker calls
issued, `core.error` lines, `core.warning` lines, and the outcome. -/
structure IssueResult where
  comments : List CommentCall
  updates : List UpdateCall
  errors : List String
  warnings : List String
  outcome : Outcome
deriving DecidableEq, Repr

/-- Embedding of `_postComment` (issueTriage.js lines 166-188).  Returns the
`createComment` calls issued, the `core.error` lines, and the returned
boolean.  In dry-run mode the call is skipped, so it cannot fail. -/
def postComment (now : Int) (dryRun : Bool) (commentRes : Issue → Option String)
    (issue : Issue) (commentTemplate : String) : List CommentCall × List String × Bool :=
  let message := generateMessage now issue commentTemplate
  if dryRun then
    ([], [], true)
  else
    match commentRes issue with
    | none => ([⟨issue.number, message⟩], [], true)
    | some e =>
      ([⟨issue.number, message⟩],
        ["Could not post a comment in issue #" ++ toString issue.number ++ ": " ++ e],
        false)

/-- Embedding of `_updateIssue` (issueTriage.js lines 190-216): params get
`state = "closed"` when closing, else the current labels plus the stale
label; in dry-run mode the call is skipped and cannot fail. -/
def updateIssue (opts : Options) (dryRun : Bool) (updateRes : Issue → Option String)
    (issue : Issue) (closeIssue : Bool) : List UpdateCall × List String × Bool :=
  let params : UpdateCall :=
    if closeIssue then ⟨issue.number, some "closed", none⟩
    else ⟨issue.number, none, some (issue.labels ++ [opts.staleLabel])⟩
  if dryRun then
    ([], [], true)
  else
    match updateRes issue with
    | none => ([params], [], true)
    | some e =>
      ([params],
        ["Could not " ++ (if closeIssue then "close" else "update") ++ " issue #"
          ++ toString issue.number ++ ": " ++ e],
        false)

/-- One iteration of the candidate loop of `run` (issueTriage.js lines 37-69):
decide closing, post the comment, on success update the issue, count on
success; a failed step throws a string which the surrounding `try` turns into
a `core.warning`. -/
def processIssue (opts : Options) (now : Int) (dryRun : Bool)
    (commentRes updateRes : Issue → Option String) (issue : Issue) : IssueResult :=
  let closing := isClosingDown opts now issue
  let post := postComment now dryRun commentRes issue
    (if closing then opts.closeComment else opts.staleComment)
  if post.2.2 then
    let upd := updateIssue opts dryRun updateRes issue closing
    if upd.2.2 then
      { comments := post.1, updates := upd.1, errors := post.2.1 ++ upd.2.1,
        warnings := [],
        outcome := if closing then .closedDown else .markedStale }
    else
      { comments := post.1, updates := upd.1, errors := post.2.1 ++ upd.2.1,
        warnings := ["Could not update issue #" ++ toString issue.number ++ "."],
        outcome := .failed }
  else
    { comments := post.1, updates := [], errors := post.2.1,
      warnings := ["Could not post comment for #" ++ toString issue.number ++ "."],
      outcome := .failed }

/-- Aggregate result of a run: the two counters, all tracker calls issued,
`core.error` and `core.warning` lines, and the `console.log` lines. -/
structure RunResult where
  markedStale : Nat
  closed : Nat
  comments : List CommentCall
  updates : List UpdateCall
  errors : List String
  warnings : List String
  logs : List String
deriving DecidableEq, Repr

/-- The candidate loop of `run` over a list of issues, left to right,
accumulating counters and effects. -/
def processAll (opts : Options) (now : Int) (dryRun : Bool)
    (commentRes updateRes : Issue → Option String) : List Issue → RunResult
  | [] => ⟨0, 0, [], [], [], [], []⟩
  | issue :: rest =>
    let r := processIssue opts now dryRun commentRes updateRes issue
    let acc := processAll opts now dryRun commentRes updateRes rest
    { markedStale := (if r.outcome = .markedStale then 1 else 0) + acc.markedStale,
      closed := (if r.outcome = .closedDown then 1 else 0) + acc.closed,
      comments := r.comments ++ acc.comments,
      updates := r.updates ++ acc.updates,
      errors := r.errors ++ acc.errors,
      warnings := r.warnings ++ acc.warnings,
      logs := [] }

/-- The fixed page size of `_getAllIssues` (issueTriage.js line 120). -/
def issuesPerPage : Nat := 100

/-- The pages requested by `_getAllIssues` (issueTriage.js lines 143-149):
`1, ..., Math.ceil(totalIssues / issuesPerPage)`. -/
def pageNumbers (totalIssues : Nat) : List Nat :=
  List.range' 1 ((totalIssues + (issuesPerPage - 1)) / issuesPerPage)

/-- Embedding of `getIssuesForPage` (issueTriage.js lines 122-134): list one
page and drop the pull requests. -/
def getIssuesForPage (listPage : Nat → Except String (List Issue)) (page : Nat) :
    Except String (List Issue) :=
  match listPage page with
  | .ok issuesResponse => .ok (issuesResponse.filter isIssue)
  | .error e => .error e

/-- The `Promise.all` over the page requests followed by concatenation in page
order (issueTriage.js lines 151-157); any rejected page rejects the whole. -/
def collectPages (listPage : Nat → Except String (List Issue)) :
    List Nat → Except String (List Issue)
  | [] => .ok []
  | p :: ps =>
    match getIssuesForPage listPage p, collectPages listPage ps with
    | .ok page, .ok rest => .ok (page ++ rest)
    | .error e, _ => .error e
    | .ok _, .error e => .error e

/-- Embedding of `_getAllIssues` (issueTriage.js lines 119-164): read the
open-issue count from repository metadata, request every page, concatenate;
any failure is caught, logged with `core.error`, and yields `[]`.  Returns
the issue list and the `core.error` lines. -/
def getAllIssues (repoGet : Except String Nat)
    (listPage : Nat → Except String (List Issue)) : List Issue × List String :=
  match repoGet with
  | .error e => ([], ["Error while fetching issues: " ++ e])
  | .ok totalIssues =>
    match collectPages listPage (pageNumbers totalIssues) with
    | .ok allIssues => (allIssues, [])
    | .error e => ([], ["Error while fetching issues: " ++ e])

/-- Embedding of `_log` (issueTriage.js lines 13-16): emit only when
`showLogs` is set. -/
def logIf (opts : Options) (message : String) : List String :=
  if opts.showLogs then [message] else []

/-- Embedding of `run` (issueTriage.js lines 18-81): fetch all issues, stop
early when none, filter the candidates, process each, then log the counts. -/
def run (opts : Options) (now : Int) (dryRun : Bool)
    (repoGet : Except String Nat) (listPage : Nat → Except String (List Issue))
    (commentRes updateRes : Issue → Option String) : RunResult :=
  let fetched := getAllIssues repoGet listPage
  if fetched.1.length = 0 then
    { markedStale := 0, closed := 0, comments := [], updates := [],
      errors := fetched.2, warnings := [],
      logs := logIf opts ("No issues found for " ++ opts.repoOwner ++ "/" ++ opts.repoName) }
  else
    let staleIssues := filterOldIssues opts now fetched.1
    let r := processAll opts now dryRun commentRes updateRes staleIssues
    { r with
      errors := fetched.2 ++ r.errors,
      logs :=
        logIf opts ("Total issues for " ++ opts.repoOwner ++ "/" ++ opts.repoName
          ++ ": " ++ toString fetched.1.length)
        ++ (if r.markedStale ≠ 0 then
              logIf opts ("Issues marked as stale: " ++ toString r.markedStale) else [])
        ++ (if r.closed ≠ 0 then
              logIf opts ("Issues closed down: " ++ toString r.closed) else [])
        ++ (if r.markedStale = 0 ∧ r.closed = 0 then
              logIf opts "No old issues found, sweet!" else []) }

/-- Whether the comment step succeeds for an issue: always in dry-run mode,
otherwise exactly when the tracker call does not throw. -/
def commentSuccess (dryRun : Bool) (commentRes : Issue → Option String) (issue : Issue) : Bool :=
  dryRun || (commentRes issue).isNone

/-- Whether the update step succeeds for an issue: always in dry-run mode,
otherwise exactly when the tracker call does not throw. -/
def updateSuccess (dryRun : Bool) (updateRes : Issue → Option String) (issue : Issue) : Bool :=
  dryRun || (updateRes issue).isNone

/-- The built-in stale comment template of the entry file (line 8). -/
def staleCommentDefault : String :=
  " Beep Boop  \n\nThis issue was last updated %DAYS_OLD% days ago! Marking as STALE.\n CC @%AUTHOR%"

/-- The built-in close comment template of the entry file (line 9). -/
def closeCommentDefault : String :=
  " Beep Boop  \n\nThis issue was inactive for %DAYS_OLD% days, so closing it down. If you have something to add, please feel free to reopen.\n\nCC @%AUTHOR%"

/-- The action inputs as `core.getInput` returns them: the raw string, `""`
when the input is not provided. -/
structure RawInputs where
  staleAfter : String
  closeAfter : String
  staleComment : String
  closeComment : String
  staleLabel : String
  showLogs : String
deriving DecidableEq, Repr

/-- JavaScript `value \x7c\x7c fallback` on a `getInput` result: the empty
string is falsy, so it picks the fallback. -/
def inputOr (value fallback : String) : String :=
  if value = "" then fallback else value

/-- Line 13 of the entry file:
`const staleComment = core.getInput('staleComment') \x7c\x7c staleCommentDefault`. -/
def wiredStaleComment (inp : RawInputs) : String :=
  inputOr inp.staleComment staleCommentDefault

/-- Line 14 of the entry file, verbatim:
`const closeComment = core.getInput('staleComment') \x7c\x7c closeCommentDefault` —
it reads the `staleComment` input, not the `closeComment` input. -/
def wiredCloseComment (inp : RawInputs) : String :=
  inputOr inp.staleComment closeCommentDefault

/-- A concrete two-page listing used to exercise the pagination round-trip:
page 1 holds one hundred plain issues, page 2 holds one pull request. -/
def pagesW : Nat → List Issue
  | 1 => List.replicate 100 ⟨7, 0, "a", [], false⟩
  | 2 => [⟨8, 0, "b", [], true⟩]
  | _ => []

/- Helper lemmas about the embedding, shared by the claim theorems below. -/

theorem matchesAt_append_self (pat t : List Char) : matchesAt pat (pat ++ t) = true := by
  induction pat with
  | nil => rfl
  | cons p ps ih => simp [matchesAt, ih]

/-- Replacing the first occurrence of `pat` in `a ++ pat ++ b` rewrites just the
shown occurrence when `pat` matches at no position inside `a`. -/
theorem replaceFirstChars_first (pat repl a b : List Char)
    (h : ∀ j, j < a.length → matchesAt pat (List.drop j a ++ (pat ++ b)) = false) :
    replaceFirstChars pat repl (a ++ (pat ++ b)) = a ++ (repl ++ b) := by
  induction a with
  | nil =>
    cases pat with
    | nil =>
      cases b with
      | nil => simp [replaceFirstChars, matchesAt]
      | cons c cs => simp [replaceFirstChars, matchesAt]
    | cons p ps =>
      have hm := matchesAt_append_self (p :: ps) b
      simp only [List.nil_append, List.cons_append] at hm ⊢
      rw [replaceFirstChars, if_pos hm]
      simp [List.drop_succ_cons, List.drop_left]
  | cons c a' ih =>
    have h0 := h 0 (by simp)
    simp only [List.drop_zero] at h0
    simp only [List.cons_append] at h0 ⊢
    rw [replaceFirstChars, if_neg (by simp [h0])]
    rw [ih (fun j hj => by simpa [List.drop_succ_cons] using h (j + 1) (by simpa using hj))]

theorem processIssue_outcome (opts : Options) (now : Int) (dryRun : Bool)
    (commentRes updateRes : Issue → Option String) (issue : Issue) :
    (processIssue opts now dryRun commentRes updateRes issue).outcome =
      if commentSuccess dryRun commentRes issue then
        if updateSuccess dryRun updateRes issue then
          if isClosingDown opts now issue then .closedDown else .markedStale
        else .failed
      else .failed := by
  unfold processIssue postComment updateIssue commentSuccess updateSuccess
  cases dryRun <;> cases h1 : commentRes issue <;> cases h2 : updateRes issue <;>
    simp [h1, h2]

theorem processIssue_comments_eq (opts : Options) (now : Int) (dryRun : Bool)
    (commentRes updateRes : Issue → Option String) (issue : Issue) :
    (processIssue opts now dryRun commentRes updateRes issue).comments =
      if dryRun then []
      else
        [⟨issue.number, generateMessage now issue
          (if isClosingDown opts now issue then opts.closeComment else opts.staleComment)⟩] := by
  unfold processIssue postComment updateIssue
  cases dryRun <;> cases h1 : commentRes issue <;> cases h2 : updateRes issue <;>
    simp [h1, h2]

theorem processIssue_updates_eq (opts : Options) (now : Int) (dryRun : Bool)
    (commentRes updateRes : Issue → Option String) (issue : Issue) :
    (processIssue opts now dryRun commentRes updateRes issue).updates =
      if dryRun then []
      else
        match commentRes issue with
        | some _ => []
        | none =>
          [if isClosingDown opts now issue then ⟨issue.number, some "closed", none⟩
           else ⟨issue.number, none, some (issue.labels ++ [opts.staleLabel])⟩] := by
  unfold processIssue postComment updateIssue
  cases dryRun <;> cases h1 : commentRes issue <;> cases h2 : updateRes issue <;>
    simp [h1, h2]

theorem processAll_cons (opts : Options) (now : Int) (dryRun : Bool)
    (commentRes updateRes : Issue → Option String) (issue : Issue) (rest : List Issue) :
    processAll opts now dryRun commentRes updateRes (issue :: rest) =
      { markedStale :=
          (if (processIssue opts now dryRun commentRes updateRes issue).outcome = .markedStale
            then 1 else 0)
          + (processAll opts now dryRun commentRes updateRes rest).markedStale,
        closed :=
          (if (processIssue opts now dryRun commentRes updateRes issue).outcome = .closedDown
            then 1 else 0)
          + (processAll opts now dryRun commentRes updateRes rest).closed,
        comments := (processIssue opts now dryRun commentRes updateRes issue).comments
          ++ (processAll opts now dryRun commentRes updateRes rest).comments,
        updates := (processIssue opts now dryRun commentRes updateRes issue).updates
          ++ (processAll opts now dryRun commentRes updateRes rest).updates,
        errors := (processIssue opts now dryRun commentRes updateRes issue).errors
          ++ (processAll opts now dryRun commentRes updateRes rest).errors,
        warnings := (processIssue opts now dryRun commentRes updateRes issue).warnings
          ++ (processAll opts now dryRun commentRes updateRes rest).warnings,
        logs := [] } := by
  rfl

theorem processAll_markedStale (opts : Options) (now : Int) (dryRun : Bool)
    (commentRes updateRes : Issue → Option String) (issues : List Issue) :
    (processAll opts now dryRun commentRes updateRes issues).markedStale =
      issues.countP
        (fun i => (processIssue opts now dryRun commentRes updateRes i).outcome == .markedStale) := by
  induction issues with
  | nil => rfl
  | cons issue rest ih =>
    rw [processAll_cons, List.countP_cons]
    simp only [ih]
    by_cases h : (processIssue opts now dryRun commentRes updateRes issue).outcome = .markedStale <;>
      simp [h, Nat.add_comm]

theorem processAll_closed (opts : Options) (now : Int) (dryRun : Bool)
    (commentRes updateRes : Issue → Option String) (issues : List Issue) :
    (processAll opts now dryRun commentRes updateRes issues).closed =
      issues.countP
        (fun i => (processIssue opts now dryRun commentRes updateRes i).outcome == .closedDown) := by
  induction issues with
  | nil => rfl
  | cons issue rest ih =>
    rw [processAll_cons, List.countP_cons]
    simp only [ih]
    by_cases h : (processIssue opts now dryRun commentRes updateRes issue).outcome = .closedDown <;>
      simp [h, Nat.add_comm]

theorem processAll_comments (opts : Options) (now : Int) (dryRun : Bool)
    (commentRes updateRes : Issue → Option String) (issues : List Issue) :
    (processAll opts now dryRun commentRes updateRes issues).comments =
      issues.flatMap (fun i => (processIssue opts now dryRun commentRes updateRes i).comments) := by
  induction issues with
  | nil => rfl
  | cons issue rest ih => rw [processAll_cons] ; simp [ih]

theorem processAll_updates (opts : Options) (now : Int) (dryRun : Bool)
    (commentRes updateRes : Issue → Option String) (issues : List Issue) :
    (processAll opts now dryRun commentRes updateRes issues).updates =
      issues.flatMap (fun i => (processIssue opts now dryRun commentRes updateRes i).updates) := by
  induction issues with
  | nil => rfl
  | cons issue rest ih => rw [processAll_cons] ; simp [ih]

theorem processIssue_warnings_eq (opts : Options) (now : Int) (dryRun : Bool)
    (commentRes updateRes : Issue → Option String) (issue : Issue) :
    (processIssue opts now dryRun commentRes updateRes issue).warnings =
      if commentSuccess dryRun commentRes issue then
        if updateSuccess dryRun updateRes issue then []
        else ["Could not update issue #" ++ toString issue.number ++ "."]
      else ["Could not post comment for #" ++ toString issue.number ++ "."] := by
  unfold processIssue postComment updateIssue commentSuccess updateSuccess
  cases dryRun <;> cases h1 : commentRes issue <;> cases h2 : updateRes issue <;>
    simp [h1, h2]

theorem run_markedStale (opts : Options) (now : Int) (dryRun : Bool)
    (repoGet : Except String Nat) (listPage : Nat → Except String (List Issue))
    (commentRes updateRes : Issue → Option String) :
    (run opts now dryRun repoGet listPage commentRes updateRes).markedStale =
      (processAll opts now dryRun commentRes updateRes
        (filterOldIssues opts now (getAllIssues repoGet listPage).1)).markedStale := by
  rw [run]
  by_cases h : (getAllIssues repoGet listPage).1.length = 0
  · have h0 : (getAllIssues repoGet listPage).1 = [] := List.length_eq_zero.mp h
    simp [h, h0, filterOldIssues, processAll]
  · simp [h]

theorem run_closed (opts : Options) (now : Int) (dryRun : Bool)
    (repoGet : Except String Nat) (listPage : Nat → Except String (List Issue))
    (commentRes updateRes : Issue → Option String) :
    (run opts now dryRun repoGet listPage commentRes updateRes).closed =
      (processAll opts now dryRun commentRes updateRes
        (filterOldIssues opts now (getAllIssues repoGet listPage).1)).closed := by
  rw [run]
  by_cases h : (getAllIssues repoGet listPage).1.length = 0
  · have h0 : (getAllIssues repoGet listPage).1 = [] := List.length_eq_zero.mp h
    simp [h, h0, filterOldIssues, processAll]
  · simp [h]

theorem run_comments (opts : Options) (now : Int) (dryRun : Bool)
    (repoGet : Except String Nat) (listPage : Nat → Except String (List Issue))
    (commentRes updateRes : Issue → Option String) :
    (run opts now dryRun repoGet listPage commentRes updateRes).comments =
      (processAll opts now dryRun commentRes updateRes
        (filterOldIssues opts now (getAllIssues repoGet listPage).1)).comments := by
  rw [run]
  by_cases h : (getAllIssues repoGet listPage).1.length = 0
  · have h0 : (getAllIssues repoGet listPage).1 = [] := List.length_eq_zero.mp h
    simp [h, h0, filterOldIssues, processAll]
  · simp [h]

theorem run_updates (opts : Options) (now : Int) (dryRun : Bool)
    (repoGet : Except String Nat) (listPage : Nat → Except String (List Issue))
    (commentRes updateRes : Issue → Option String) :
    (run opts now dryRun repoGet listPage commentRes updateRes).updates =
      (processAll opts now dryRun commentRes updateRes
        (filterOldIssues opts now (getAllIssues repoGet listPage).1)).updates := by
  rw [run]
  by_cases h : (getAllIssues repoGet listPage).1.length = 0
  · have h0 : (getAllIssues repoGet listPage).1 = [] := List.length_eq_zero.mp h
    simp [h, h0, filterOldIssues, processAll]
  · simp [h]

theorem collectPages_ok (listPage : Nat → Except String (List Issue)) (pages : Nat → List Issue)
    (hlp : ∀ p, listPage p = .ok (pages p)) (ps : List Nat) :
    collectPages listPage ps = .ok (ps.flatMap (fun p => (pages p).filter isIssue)) := by
  induction ps with
  | nil => rfl
  | cons q qs ih => simp [collectPages, getIssuesForPage, hlp, ih]

theorem collectPages_error (listPage : Nat → Except String (List Issue))
    (ps : List Nat) (p : Nat) (e : String) (hp : p ∈ ps) (he : listPage p = .error e) :
    ∃ e2, collectPages listPage ps = .error e2 := by
  induction ps with
  | nil => exact absurd hp (List.not_mem_nil p)
  | cons q qs ih =>
    rw [collectPages]
    rcases List.mem_cons.mp hp with h | h
    · subst h
      rw [getIssuesForPage, he]
      exact ⟨e, rfl⟩
    · obtain ⟨e2, he2⟩ := ih h
      rw [he2]
      cases hq : getIssuesForPage listPage q with
      | ok page => exact ⟨e2, rfl⟩
      | error e3 => exact ⟨e3, rfl⟩

theorem filter_flatMap_comm (l : List Nat) (f : Nat → List Issue) (q : Issue → Bool) :
    (l.flatMap f).filter q = l.flatMap (fun x => (f x).filter q) := by
  induction l with
  | nil => rfl
  | cons a l ih => simp [List.flatMap_cons, List.filter_append, ih]

theorem length_filter_isIssue (l : List Issue) :
    (l.filter isIssue).length + (l.filter (fun i => i.pull_request)).length = l.length := by
  induction l with
  | nil => rfl
  | cons a l ih =>
    by_cases h : a.pull_request <;>
      simp [List.filter_cons, isIssue, h, List.length_cons] <;> omega

theorem countP_add_countP_le_length (p q : Issue → Bool) (l : List Issue)
    (h : ∀ a ∈ l, ¬(p a = true ∧ q a = true)) :
    l.countP p + l.countP q ≤ l.length := by
  induction l with
  | nil => simp
  | cons a l ih =>
    have ha := h a (List.mem_cons_self a l)
    have ihl := ih (fun x hx => h x (List.mem_cons_of_mem a hx))
    rw [List.countP_cons, List.countP_cons, List.length_cons]
    cases hp : p a <;> cases hq : q a <;> simp [hp, hq] <;> try omega
    exact absurd ⟨hp, hq⟩ ha

theorem processIssue_comments_mem (opts : Options) (now : Int) (dryRun : Bool)
    (commentRes updateRes : Issue → Option String) (issue : Issue) (c : CommentCall)
    (hc : c ∈ (processIssue opts now dryRun commentRes updateRes issue).comments) :
    c.issue_number = issue.number := by
  rw [processIssue_comments_eq] at hc
  cases dryRun with
  | true => simp at hc
  | false => simp at hc ; rw [hc]

theorem processIssue_updates_mem (opts : Options) (now : Int) (dryRun : Bool)
    (commentRes updateRes : Issue → Option String) (issue : Issue) (u : UpdateCall)
    (hu : u ∈ (processIssue opts now dryRun commentRes updateRes issue).updates) :
    u.issue_number = issue.number
    ∧ (isClosingDown opts now issue = true → u = ⟨issue.number, some "closed", none⟩)
    ∧ (isClosingDown opts now issue = false →
        u = ⟨issue.number, none, some (issue.labels ++ [opts.staleLabel])⟩) := by
  rw [processIssue_updates_eq] at hu
  cases dryRun with
  | true => simp at hu
  | false =>
    cases hcr : commentRes issue with
    | some e => rw [hcr] at hu ; simp at hu
    | none =>
      rw [hcr] at hu
      simp only [if_false, Bool.false_eq_true, List.mem_singleton] at hu
      cases hcl : isClosingDown opts now issue with
      | true =>
        rw [hcl] at hu
        simp at hu
        subst hu
        exact ⟨rfl, fun _ => rfl, fun hf => by simp at hf⟩
      | false =>
        rw [hcl] at hu
        simp at hu
        subst hu
        exact ⟨rfl, fun ht => by simp at ht, fun _ => rfl⟩

theorem outcome_success (opts : Options) (now : Int) (dryRun : Bool)
    (commentRes updateRes : Issue → Option String) (issue : Issue)
    (h : (processIssue opts now dryRun commentRes updateRes issue).outcome ≠ .failed) :
    commentSuccess dryRun commentRes issue = true
    ∧ updateSuccess dryRun updateRes issue = true
    ∧ (processIssue opts now dryRun commentRes updateRes issue).outcome
        = (if isClosingDown opts now issue then .closedDown else .markedStale) := by
  have ho := processIssue_outcome opts now dryRun commentRes updateRes issue
  cases hcs : commentSuccess dryRun commentRes issue with
  | false => rw [hcs] at ho ; simp at ho ; exact absurd ho h
  | true =>
    cases hus : updateSuccess dryRun updateRes issue with
    | false => rw [hcs, hus] at ho ; simp at ho ; exact absurd ho h
    | true =>
      rw [hcs, hus] at ho
      simp at ho
      exact ⟨rfl, rfl, ho⟩

theorem flatMap_nil_of_forall {α β : Type} (l : List α) (f : α → List β)
    (h : ∀ a, f a = []) : l.flatMap f = [] := by
  induction l with
  | nil => rfl
  | cons a l ih => simp [List.flatMap_cons, h, ih]

/- Claim theorems. -/

/-- C5: message rendering substitutes only the first occurrence of the
days token (with the rounded age) and only the first occurrence of the
author token (with the author handle): a repeated token keeps every later
instance verbatim, and identical inputs give the identical message. -/
theorem generateMessage_first_occurrence (now : Int) (issue : Issue)
    (pat repl : String) (a b : List Char)
    (h : ∀ j, j < a.length → matchesAt pat.data (List.drop j a ++ (pat.data ++ b)) = false) :
    replaceFirstChars pat.data repl.data (a ++ (pat.data ++ b)) = a ++ (repl.data ++ b)
    ∧ (∀ tmpl : String,
        generateMessage now issue tmpl =
          replaceFirst
            (replaceFirst tmpl "%DAYS_OLD%" (toString (getDaysSince now issue.updated_at)))
            "%AUTHOR%" issue.author)
    ∧ (∀ tmpl tmpl2 : String, tmpl = tmpl2 →
        generateMessage now issue tmpl = generateMessage now issue tmpl2) :=
  ⟨replaceFirstChars_first pat.data repl.data a b h,
   fun _ => rfl,
   fun _ _ ht => by rw [ht]⟩

/-- Witness for C5: a template whose author token appears twice has only the
first instance substituted. -/
theorem generateMessage_first_occurrence_witness :
    (∀ j, j < ("Hi ".data).length →
      matchesAt "%AUTHOR%".data
        (List.drop j "Hi ".data ++ ("%AUTHOR%".data ++ " and %AUTHOR%".data)) = false)
    ∧ replaceFirstChars "%AUTHOR%".data "alice".data
        ("Hi ".data ++ ("%AUTHOR%".data ++ " and %AUTHOR%".data)) =
        "Hi ".data ++ ("alice".data ++ " and %AUTHOR%".data) :=
  ⟨by decide,
   (generateMessage_first_occurrence 0 ⟨1, 0, "alice", [], false⟩ "%AUTHOR%" "alice"
      "Hi ".data " and %AUTHOR%".data (by decide)).1⟩

/-- C1: an issue is a triage candidate iff its age strictly exceeds
`staleAfter` days (an issue exactly that old is not a candidate, and every
comment or update the run issues belongs to a candidate); the closing
decision for a candidate holds iff `closeAfter > staleAfter` and the age
strictly exceeds `closeAfter` days, and a candidate not closing is sent only
the stale-label update, never a close. -/
theorem triage_decision_thresholds (opts : Options) (now : Int) (dryRun : Bool)
    (repoGet : Except String Nat) (listPage : Nat → Except String (List Issue))
    (commentRes updateRes : Issue → Option String) :
    (∀ (issues : List Issue) (issue : Issue),
        issue ∈ filterOldIssues opts now issues ↔
          issue ∈ issues ∧ opts.staleAfter * oneDay < now - issue.updated_at)
    ∧ (∀ issue : Issue, isClosingDown opts now issue = true ↔
          opts.staleAfter < opts.closeAfter ∧ opts.closeAfter * oneDay < now - issue.updated_at)
    ∧ (∀ c ∈ (run opts now dryRun repoGet listPage commentRes updateRes).comments,
        ∃ issue, issue ∈ filterOldIssues opts now (getAllIssues repoGet listPage).1
          ∧ c.issue_number = issue.number)
    ∧ (∀ u ∈ (run opts now dryRun repoGet listPage commentRes updateRes).updates,
        ∃ issue, issue ∈ filterOldIssues opts now (getAllIssues repoGet listPage).1
          ∧ u.issue_number = issue.number
          ∧ (isClosingDown opts now issue = true → u = ⟨issue.number, some "closed", none⟩)
          ∧ (isClosingDown opts now issue = false →
              u = ⟨issue.number, none, some (issue.labels ++ [opts.staleLabel])⟩)) := by
  refine ⟨?_, ?_, ?_, ?_⟩
  · intro issues issue
    simp only [filterOldIssues, List.mem_filter, isOlderThan, decide_eq_true_eq]
    constructor
    · rintro ⟨h1, h2⟩ ; exact ⟨h1, by omega⟩
    · rintro ⟨h1, h2⟩ ; exact ⟨h1, by omega⟩
  · intro issue
    simp only [isClosingDown, isOlderThan, Bool.and_eq_true, decide_eq_true_eq]
    constructor
    · rintro ⟨h1, h2⟩ ; exact ⟨h1, by omega⟩
    · rintro ⟨h1, h2⟩ ; exact ⟨h1, by omega⟩
  · intro c hc
    rw [run_comments, processAll_comments] at hc
    obtain ⟨issue, hmem, hci⟩ := List.mem_flatMap.mp hc
    exact ⟨issue, hmem,
      processIssue_comments_mem opts now dryRun commentRes updateRes issue c hci⟩
  · intro u hu
    rw [run_updates, processAll_updates] at hu
    obtain ⟨issue, hmem, hui⟩ := List.mem_flatMap.mp hu
    exact ⟨issue, hmem,
      processIssue_updates_mem opts now dryRun commentRes updateRes issue u hui⟩

/-- Witness for C1: with `staleAfter = 30` and `now` exactly thirty days after
the update, the issue is not a candidate; one millisecond older, it is. -/
theorem triage_decision_thresholds_witness :
    (⟨1, 0, "a", [], false⟩ ∈ filterOldIssues ⟨"o", "r", 30, 60, "s", "c", "STALE", true⟩
        (30 * oneDay) [⟨1, 0, "a", [], false⟩] ↔
      (⟨1, 0, "a", [], false⟩ : Issue) ∈ [(⟨1, 0, "a", [], false⟩ : Issue)]
        ∧ (30 : Int) * oneDay < 30 * oneDay - 0)
    ∧ (⟨1, 0, "a", [], false⟩ ∈ filterOldIssues ⟨"o", "r", 30, 60, "s", "c", "STALE", true⟩
        (30 * oneDay + 1) [⟨1, 0, "a", [], false⟩] ↔
      (⟨1, 0, "a", [], false⟩ : Issue) ∈ [(⟨1, 0, "a", [], false⟩ : Issue)]
        ∧ (30 : Int) * oneDay < 30 * oneDay + 1 - 0) :=
  ⟨(triage_decision_thresholds ⟨"o", "r", 30, 60, "s", "c", "STALE", true⟩ (30 * oneDay)
      false (.ok 0) (fun _ => .ok []) (fun _ => none) (fun _ => none)).1
      [⟨1, 0, "a", [], false⟩] ⟨1, 0, "a", [], false⟩,
   (triage_decision_thresholds ⟨"o", "r", 30, 60, "s", "c", "STALE", true⟩ (30 * oneDay + 1)
      false (.ok 0) (fun _ => .ok []) (fun _ => none) (fun _ => none)).1
      [⟨1, 0, "a", [], false⟩] ⟨1, 0, "a", [], false⟩⟩

/-- C2: when the comment post for a candidate fails, no update call is issued
for it, its outcome is a failure that counts toward neither counter, the
failure is recorded as a warning, and the remaining issues are still
processed; any failed candidate leaves both counters unchanged. -/
theorem comment_failure_isolated (opts : Options) (now : Int)
    (commentRes updateRes : Issue → Option String) (issue : Issue) (rest : List Issue)
    (e : String) (hc : commentRes issue = some e) :
    (processIssue opts now false commentRes updateRes issue).updates = []
    ∧ (processIssue opts now false commentRes updateRes issue).outcome = .failed
    ∧ (processAll opts now false commentRes updateRes (issue :: rest)).markedStale
        = (processAll opts now false commentRes updateRes rest).markedStale
    ∧ (processAll opts now false commentRes updateRes (issue :: rest)).closed
        = (processAll opts now false commentRes updateRes rest).closed
    ∧ (processAll opts now false commentRes updateRes (issue :: rest)).warnings
        = ("Could not post comment for #" ++ toString issue.number ++ ".")
            :: (processAll opts now false commentRes updateRes rest).warnings
    ∧ (∀ (i : Issue) (l : List Issue),
        (processIssue opts now false commentRes updateRes i).outcome = .failed →
          (processAll opts now false commentRes updateRes (i :: l)).markedStale
              = (processAll opts now false commentRes updateRes l).markedStale
          ∧ (processAll opts now false commentRes updateRes (i :: l)).closed
              = (processAll opts now false commentRes updateRes l).closed
          ∧ (processAll opts now false commentRes updateRes (i :: l)).warnings
              = (processIssue opts now false commentRes updateRes i).warnings
                  ++ (processAll opts now false commentRes updateRes l).warnings) := by
  have hcs : commentSuccess false commentRes issue = false := by
    simp [commentSuccess, hc]
  have hout : (processIssue opts now false commentRes updateRes issue).outcome = .failed := by
    rw [processIssue_outcome, hcs] ; rfl
  have hgen : ∀ (i : Issue) (l : List Issue),
      (processIssue opts now false commentRes updateRes i).outcome = .failed →
        (processAll opts now false commentRes updateRes (i :: l)).markedStale
            = (processAll opts now false commentRes updateRes l).markedStale
        ∧ (processAll opts now false commentRes updateRes (i :: l)).closed
            = (processAll opts now false commentRes updateRes l).closed
        ∧ (processAll opts now false commentRes updateRes (i :: l)).warnings
            = (processIssue opts now false commentRes updateRes i).warnings
                ++ (processAll opts now false commentRes updateRes l).warnings := by
    intro i l hf
    rw [processAll_cons]
    simp [hf]
  have hwarn : (processIssue opts now false commentRes updateRes issue).warnings
      = ["Could not post comment for #" ++ toString issue.number ++ "."] := by
    rw [processIssue_warnings_eq, hcs]
    rfl
  refine ⟨?_, hout, (hgen issue rest hout).1, (hgen issue rest hout).2.1, ?_, hgen⟩
  · rw [processIssue_updates_eq, hc]
    rfl
  · rw [(hgen issue rest hout).2.2, hwarn]
    rfl

/-- Witness for C2: a failing comment call leaves no update call and the
counters of the remaining singleton list unchanged. -/
theorem comment_failure_isolated_witness :
    (fun _ : Issue => (some "boom" : Option String)) ⟨1, 0, "a", [], false⟩ = some "boom"
    ∧ (processIssue ⟨"o", "r", 30, 60, "s", "c", "STALE", true⟩ 0 false
        (fun _ => some "boom") (fun _ => none) ⟨1, 0, "a", [], false⟩).updates = []
    ∧ (processAll ⟨"o", "r", 30, 60, "s", "c", "STALE", true⟩ 0 false
        (fun _ => some "boom") (fun _ => none)
        [⟨1, 0, "a", [], false⟩, ⟨2, 0, "b", [], false⟩]).markedStale
      = (processAll ⟨"o", "r", 30, 60, "s", "c", "STALE", true⟩ 0 false
        (fun _ => some "boom") (fun _ => none) [⟨2, 0, "b", [], false⟩]).markedStale :=
  ⟨rfl,
   (comment_failure_isolated ⟨"o", "r", 30, 60, "s", "c", "STALE", true⟩ 0
      (fun _ => some "boom") (fun _ => none) ⟨1, 0, "a", [], false⟩
      [⟨2, 0, "b", [], false⟩] "boom" rfl).1,
   (comment_failure_isolated ⟨"o", "r", 30, 60, "s", "c", "STALE", true⟩ 0
      (fun _ => some "boom") (fun _ => none) ⟨1, 0, "a", [], false⟩
      [⟨2, 0, "b", [], false⟩] "boom" rfl).2.2.1⟩

/-- C3: a failed metadata query or any failed page request makes the fetch
return the empty list; the run then logs that no issues were found and ends
with zero counts and no tracker calls, and the fetched value is the same as
for a repository with zero open issues. -/
theorem fetch_failure_empty (opts : Options) (now : Int) (dryRun : Bool)
    (repoGet : Except String Nat) (listPage : Nat → Except String (List Issue))
    (commentRes updateRes : Issue → Option String)
    (h : (∃ e, repoGet = .error e)
      ∨ (∃ total, repoGet = .ok total
          ∧ ∃ p ∈ pageNumbers total, ∃ e, listPage p = .error e)) :
    (getAllIssues repoGet listPage).1 = []
    ∧ run opts now dryRun repoGet listPage commentRes updateRes =
        { markedStale := 0, closed := 0, comments := [], updates := [],
          errors := (getAllIssues repoGet listPage).2, warnings := [],
          logs := logIf opts ("No issues found for " ++ opts.repoOwner ++ "/" ++ opts.repoName) }
    ∧ (getAllIssues repoGet listPage).1 = (getAllIssues (.ok 0) listPage).1 := by
  have h1 : (getAllIssues repoGet listPage).1 = [] := by
    rcases h with ⟨e, he⟩ | ⟨total, htot, p, hp, e, he⟩
    · rw [he] ; rfl
    · subst htot
      obtain ⟨e2, he2⟩ := collectPages_error listPage (pageNumbers total) p e hp he
      simp [getAllIssues, he2]
  refine ⟨h1, ?_, ?_⟩
  · rw [run]
    simp [h1]
  · rw [h1] ; rfl

/-- Witness for C3: a failing metadata query yields the empty issue list. -/
theorem fetch_failure_empty_witness :
    ((∃ e, (Except.error "down" : Except String Nat) = .error e)
      ∨ (∃ total, (Except.error "down" : Except String Nat) = .ok total
          ∧ ∃ p ∈ pageNumbers total, ∃ e,
              (fun _ : Nat => (Except.ok [] : Except String (List Issue))) p = .error e))
    ∧ (getAllIssues (.error "down") (fun _ : Nat => (Except.ok [] : Except String (List Issue)))).1
        = [] :=
  ⟨.inl ⟨"down", rfl⟩,
   (fetch_failure_empty ⟨"o", "r", 30, 0, "s", "c", "STALE", true⟩ 0 false
      (.error "down") (fun _ => .ok []) (fun _ => none) (fun _ => none)
      (.inl ⟨"down", rfl⟩)).1⟩

/-- C4: with the metadata reporting `total` open issues, the fetcher requests
pages `1 .. ceil(total / 100)` with page size 100, keeps the entries whose
pull-request discriminator is unset, and returns the pages' filtered contents
concatenated in page order; when the pages jointly serve `total` entries of
which some are pull requests, the result length is `total` minus the number
of pull requests. -/
theorem pagination_complete (total : Nat)
    (listPage : Nat → Except String (List Issue)) (pages : Nat → List Issue)
    (hlp : ∀ p, listPage p = .ok (pages p))
    (hN : ((pageNumbers total).flatMap pages).length = total) :
    pageNumbers total = List.range' 1 ((total + (issuesPerPage - 1)) / issuesPerPage)
    ∧ issuesPerPage = 100
    ∧ (getAllIssues (.ok total) listPage).1 = ((pageNumbers total).flatMap pages).filter isIssue
    ∧ (getAllIssues (.ok total) listPage).1.length =
        total - (((pageNumbers total).flatMap pages).filter (fun i => i.pull_request)).length := by
  have hok := collectPages_ok listPage pages hlp (pageNumbers total)
  have hc : (getAllIssues (.ok total) listPage).1
      = ((pageNumbers total).flatMap pages).filter isIssue := by
    simp [getAllIssues, hok, filter_flatMap_comm]
  refine ⟨rfl, rfl, hc, ?_⟩
  rw [hc]
  have hlen := length_filter_isIssue ((pageNumbers total).flatMap pages)
  omega

/-- Witness for C4: a repository reporting 101 open issues spans two pages;
with one pull request on the second page, 100 issues come back. -/
theorem pagination_complete_witness :
    (∀ p, (fun q : Nat => (Except.ok (pagesW q) : Except String (List Issue))) p
        = .ok (pagesW p))
    ∧ ((pageNumbers 101).flatMap pagesW).length = 101
    ∧ (getAllIssues (.ok 101) (fun q => .ok (pagesW q))).1.length =
        101 - (((pageNumbers 101).flatMap pagesW).filter (fun i => i.pull_request)).length :=
  ⟨fun _ => rfl, by rfl,
   (pagination_complete 101 (fun q => .ok (pagesW q)) pagesW (fun _ => rfl) (by rfl)).2.2.2⟩

/-- C6: the claim fails on the code.  The entry file builds the close template
from the `staleComment` input, so a supplied `closeComment` input is ignored:
with `closeComment` supplied and `staleComment` absent the built-in close
template is used, and a supplied `staleComment` becomes the close template. -/
theorem closeComment_input_ignored :
    wiredCloseComment ⟨"", "", "", "Custom close message", "", ""⟩ = closeCommentDefault
    ∧ closeCommentDefault ≠ "Custom close message"
    ∧ wiredCloseComment ⟨"", "", "A stale note", "Custom close message", "", ""⟩
        = "A stale note" := by
  refine ⟨rfl, ?_, rfl⟩
  decide

/-- C7: the run's result carries the `markedStale` and `closed` counters, and
they count exactly the candidate issues whose stale-marking, respectively
closing, fully succeeded (comment posted and update applied). -/
theorem run_returns_outcome_counts (opts : Options) (now : Int) (dryRun : Bool)
    (repoGet : Except String Nat) (listPage : Nat → Except String (List Issue))
    (commentRes updateRes : Issue → Option String) :
    (run opts now dryRun repoGet listPage commentRes updateRes).markedStale =
      (filterOldIssues opts now (getAllIssues repoGet listPage).1).countP
        (fun i => (processIssue opts now dryRun commentRes updateRes i).outcome == .markedStale)
    ∧ (run opts now dryRun repoGet listPage commentRes updateRes).closed =
      (filterOldIssues opts now (getAllIssues repoGet listPage).1).countP
        (fun i => (processIssue opts now dryRun commentRes updateRes i).outcome == .closedDown)
    ∧ (∀ issue : Issue,
        ((processIssue opts now dryRun commentRes updateRes issue).outcome = .markedStale ↔
          commentSuccess dryRun commentRes issue = true
          ∧ updateSuccess dryRun updateRes issue = true
          ∧ isClosingDown opts now issue = false)
        ∧ ((processIssue opts now dryRun commentRes updateRes issue).outcome = .closedDown ↔
          commentSuccess dryRun commentRes issue = true
          ∧ updateSuccess dryRun updateRes issue = true
          ∧ isClosingDown opts now issue = true)) := by
  refine ⟨?_, ?_, ?_⟩
  · rw [run_markedStale, processAll_markedStale]
  · rw [run_closed, processAll_closed]
  · intro issue
    simp only [processIssue_outcome]
    cases hcs : commentSuccess dryRun commentRes issue <;>
      cases hus : updateSuccess dryRun updateRes issue <;>
        cases hcl : isClosingDown opts now issue <;>
          simp

/-- C8: a candidate being marked stale is sent exactly one update, whose
labels are the issue's current labels with the stale label appended and not
deduplicated: when the stale label is already attached, the sent list holds
it at least twice. -/
theorem stale_update_appends_label (opts : Options) (now : Int)
    (commentRes updateRes : Issue → Option String) (issue : Issue)
    (hclose : isClosingDown opts now issue = false) (hc : commentRes issue = none) :
    (processIssue opts now false commentRes updateRes issue).updates =
      [⟨issue.number, none, some (issue.labels ++ [opts.staleLabel])⟩]
    ∧ (opts.staleLabel ∈ issue.labels →
        2 ≤ (issue.labels ++ [opts.staleLabel]).count opts.staleLabel) := by
  constructor
  · rw [processIssue_updates_eq, hc, hclose]
    rfl
  · intro hmem
    rw [List.count_append]
    have h1 : 0 < issue.labels.count opts.staleLabel := List.count_pos_iff.mpr hmem
    have h2 : List.count opts.staleLabel [opts.staleLabel] = 1 := by simp
    omega

/-- Witness for C8: an issue that already carries the stale label is sent the
label list with the stale label twice. -/
theorem stale_update_appends_label_witness :
    isClosingDown ⟨"o", "r", 30, 0, "s", "c", "STALE", true⟩ 0 ⟨1, 0, "a", ["STALE"], false⟩
        = false
    ∧ (fun _ : Issue => (none : Option String)) ⟨1, 0, "a", ["STALE"], false⟩ = none
    ∧ (processIssue ⟨"o", "r", 30, 0, "s", "c", "STALE", true⟩ 0 false
        (fun _ => none) (fun _ => none) ⟨1, 0, "a", ["STALE"], false⟩).updates =
      [⟨1, none, some ["STALE", "STALE"]⟩] :=
  ⟨rfl, rfl,
   (stale_update_appends_label ⟨"o", "r", 30, 0, "s", "c", "STALE", true⟩ 0
      (fun _ => none) (fun _ => none) ⟨1, 0, "a", ["STALE"], false⟩ rfl rfl).1⟩

/-- C9: with the dry-run indicator set, no comment or update call is issued
to the tracker, while the counters and the informational logs equal those of
a live run over the same fetched data whose tracker calls all succeed. -/
theorem dryRun_matches_live (opts : Options) (now : Int)
    (repoGet : Except String Nat) (listPage : Nat → Except String (List Issue))
    (commentRes updateRes : Issue → Option String) :
    (run opts now true repoGet listPage commentRes updateRes).comments = []
    ∧ (run opts now true repoGet listPage commentRes updateRes).updates = []
    ∧ (run opts now true repoGet listPage commentRes updateRes).markedStale =
        (run opts now false repoGet listPage (fun _ => none) (fun _ => none)).markedStale
    ∧ (run opts now true repoGet listPage commentRes updateRes).closed =
        (run opts now false repoGet listPage (fun _ => none) (fun _ => none)).closed
    ∧ (run opts now true repoGet listPage commentRes updateRes).logs =
        (run opts now false repoGet listPage (fun _ => none) (fun _ => none)).logs := by
  have hout : ∀ i : Issue, (processIssue opts now true commentRes updateRes i).outcome
      = (processIssue opts now false (fun _ => none) (fun _ => none) i).outcome := by
    intro i
    rw [processIssue_outcome, processIssue_outcome]
    simp [commentSuccess, updateSuccess]
  have hms : ∀ issues : List Issue,
      (processAll opts now true commentRes updateRes issues).markedStale
        = (processAll opts now false (fun _ => none) (fun _ => none) issues).markedStale := by
    intro issues
    rw [processAll_markedStale, processAll_markedStale]
    exact List.countP_congr (fun i _ => by rw [hout i])
  have hcl : ∀ issues : List Issue,
      (processAll opts now true commentRes updateRes issues).closed
        = (processAll opts now false (fun _ => none) (fun _ => none) issues).closed := by
    intro issues
    rw [processAll_closed, processAll_closed]
    exact List.countP_congr (fun i _ => by rw [hout i])
  refine ⟨?_, ?_, ?_, ?_, ?_⟩
  · rw [run_comments, processAll_comments]
    exact flatMap_nil_of_forall _ _ (fun i => by rw [processIssue_comments_eq] ; rfl)
  · rw [run_updates, processAll_updates]
    exact flatMap_nil_of_forall _ _ (fun i => by rw [processIssue_updates_eq] ; rfl)
  · rw [run_markedStale, run_markedStale]
    exact hms _
  · rw [run_closed, run_closed]
    exact hcl _
  · rw [run, run]
    by_cases h : (getAllIssues repoGet listPage).1.length = 0
    · simp [h]
    · simp only [h, if_false, ite_false]
      rw [hms, hcl]

/-- C10: both counters start at zero, each candidate processed adds one to at
most one of them and only when both its comment and its update succeeded, and
the run's final counts never exceed the number of candidates. -/
theorem counters_invariant (opts : Options) (now : Int) (dryRun : Bool)
    (repoGet : Except String Nat) (listPage : Nat → Except String (List Issue))
    (commentRes updateRes : Issue → Option String) :
    (processAll opts now dryRun commentRes updateRes []).markedStale = 0
    ∧ (processAll opts now dryRun commentRes updateRes []).closed = 0
    ∧ (∀ (issue : Issue) (rest : List Issue),
        ((processAll opts now dryRun commentRes updateRes (issue :: rest)).markedStale
            = (processAll opts now dryRun commentRes updateRes rest).markedStale
          ∧ (processAll opts now dryRun commentRes updateRes (issue :: rest)).closed
            = (processAll opts now dryRun commentRes updateRes rest).closed)
        ∨ ((processAll opts now dryRun commentRes updateRes (issue :: rest)).markedStale
            = (processAll opts now dryRun commentRes updateRes rest).markedStale + 1
          ∧ (processAll opts now dryRun commentRes updateRes (issue :: rest)).closed
            = (processAll opts now dryRun commentRes updateRes rest).closed
          ∧ commentSuccess dryRun commentRes issue = true
          ∧ updateSuccess dryRun updateRes issue = true)
        ∨ ((processAll opts now dryRun commentRes updateRes (issue :: rest)).closed
            = (processAll opts now dryRun commentRes updateRes rest).closed + 1
          ∧ (processAll opts now dryRun commentRes updateRes (issue :: rest)).markedStale
            = (processAll opts now dryRun commentRes updateRes rest).markedStale
          ∧ commentSuccess dryRun commentRes issue = true
          ∧ updateSuccess dryRun updateRes issue = true))
    ∧ (run opts now dryRun repoGet listPage commentRes updateRes).markedStale
        + (run opts now dryRun repoGet listPage commentRes updateRes).closed
      ≤ (filterOldIssues opts now (getAllIssues repoGet listPage).1).length := by
  refine ⟨rfl, rfl, ?_, ?_⟩
  · intro issue rest
    rw [processAll_cons]
    cases houtc : (processIssue opts now dryRun commentRes updateRes issue).outcome with
    | failed => left ; simp
    | markedStale =>
      obtain ⟨hcsu, husu, _⟩ := outcome_success opts now dryRun commentRes updateRes issue
        (by rw [houtc] ; simp)
      right ; left
      refine ⟨?_, ?_, hcsu, husu⟩ <;> simp <;> omega
    | closedDown =>
      obtain ⟨hcsu, husu, _⟩ := outcome_success opts now dryRun commentRes updateRes issue
        (by rw [houtc] ; simp)
      right ; right
      refine ⟨?_, ?_, hcsu, husu⟩ <;> simp <;> omega
  · rw [run_markedStale, run_closed, processAll_markedStale, processAll_closed]
    apply countP_add_countP_le_length
    intro a _ h12
    obtain ⟨h1, h2⟩ := h12
    rw [beq_iff_eq] at h1 h2
    rw [h1] at h2
    exact absurd h2 (by decide)

end IssueTriage
